import Mathlib

/-!
Shallow embedding of the goada-wasm host adapter (package `goadawasm`).

The repository bridges Go host code with a precompiled Ada URL-parsing WASM
module.  The guest module is opaque: the host only observes it through
exported functions (`malloc`, `free`, `ada_parse`, `ada_is_valid`,
`ada_free`, getters, setters, predicates) and through raw linear-memory
reads and writes.  We model the guest as an oracle (`Guest`) and each host
operation as a pure function that returns its result together with the list
of observable guest interactions it performs (`Event`), in order.

Machine integers: guest pointers and lengths are unsigned 32-bit values,
modelled as `Nat` with an explicit `% 2 ^ 32` where the Go source truncates
(`uint32(results[0])`).  Go strings cross the boundary as raw byte
sequences, modelled as `List Nat` (each element a byte).
-/

deriving instance DecidableEq for Except

namespace GoadaWasm

/-- Errors produced by the host bridge, mirroring the `error` values in
`goadawasm.go`: the two sentinel errors `ErrEmptyString` and
`ErrInvalidUrl`, the `"<name> function not found"` errors, the memory
write/read failures, and a trapped guest call (`fn.Call` returning an
error). -/
inductive Err where
  | emptyString
  | invalidUrl
  | notFound (fname : String)
  | writeFailed
  | readFailed (what : String)
  | trap (fname : String)
deriving DecidableEq, Repr

/-- An observable interaction with the guest module: an exported-function
call with its argument words, a linear-memory write of raw bytes, or a
linear-memory read of `len` bytes at `ptr`. -/
inductive Event where
  | call (name : String) (args : List Nat)
  | memWrite (ptr : Nat) (bytes : List Nat)
  | memRead (ptr : Nat) (len : Nat)
deriving DecidableEq, Repr

/-- Oracle for the observable behaviour of the guest module.  `hasExport n`
models `wasmModule.ExportedFunction(n) != nil`; `call n args` models
`fn.Call` (`none` is a trapped call, `some rs` the result words);
`memWrite`/`memRead` model `Memory().Write`/`Memory().Read` (`false`/`none`
is the out-of-range failure). -/
structure Guest where
  hasExport : String → Bool
  call : String → List Nat → Option (List Nat)
  memWrite : Nat → List Nat → Bool
  memRead : Nat → Nat → Option (List Nat)

/-- Embedding of `wasmMalloc` (goadawasm.go:60-72): resolve the `malloc` export (error if
absent), call it with the size, truncate the first result word to 32 bits. -/
def wasmMalloc (g : Guest) (size : Nat) : Except Err Nat × List Event :=
  if g.hasExport "malloc" then
    match g.call "malloc" [size] with
    | none => (.error (.trap "malloc"), [.call "malloc" [size]])
    | some rs => (.ok (rs.headD 0 % 2 ^ 32), [.call "malloc" [size]])
  else (.error (.notFound "malloc"), [])

/-- Embedding of `wasmFree` (goadawasm.go:75-83): resolve the `free` export (error if
absent), call it with the pointer.  Note: the source performs no null
check here — the pointer is forwarded to the guest unconditionally. -/
def wasmFree (g : Guest) (ptr : Nat) : Except Err Unit × List Event :=
  if g.hasExport "free" then
    match g.call "free" [ptr] with
    | none => (.error (.trap "free"), [.call "free" [ptr]])
    | some _ => (.ok (), [.call "free" [ptr]])
  else (.error (.notFound "free"), [])

/-- Embedding of `writeStringToWasm` (goadawasm.go:86-103): empty string returns the
null sentinel with no guest interaction; otherwise allocate `len(s)` bytes,
write the raw bytes, and on a write failure free the just-allocated block
(ignoring any error of that free) before returning the error. -/
def writeStringToWasm (g : Guest) (s : List Nat) : Except Err Nat × List Event :=
  if s.length = 0 then (.ok 0, [])
  else
    match wasmMalloc g s.length with
    | (.error e, evs) => (.error e, evs)
    | (.ok ptr, evs) =>
      if g.memWrite ptr s then (.ok ptr, evs ++ [.memWrite ptr s])
      else (.error .writeFailed, evs ++ [.memWrite ptr s] ++ (wasmFree g ptr).2)

/-- Little-endian 32-bit decode of four bytes, exactly as goadawasm.go:127-128
writes it: `b0 | b1<<8 | b2<<16 | b3<<24` (bitwise or of shifted bytes). -/
def le32 (b0 b1 b2 b3 : Nat) : Nat :=
  b0 ||| b1 <<< 8 ||| b2 <<< 16 ||| b3 <<< 24

/-- Embedding of `readAdaString` (goadawasm.go:106-141): allocate an 8-byte scratch
struct, call `fn` with `(resultPtr, urlPtr)` (out-parameter ABI), read the
8 bytes back, decode `(bufferPtr, length)` as little-endian u32 fields, a
zero in either yields the empty string, otherwise read `length` bytes at
`bufferPtr`.  The deferred `wasmFree(resultPtr)` runs on every exit path
after the successful allocation, so its events close every trace.  `fname`
stands for the already-resolved `fn api.Function` argument. -/
def readAdaString (g : Guest) (fname : String) (urlPtr : Nat) :
    Except Err (List Nat) × List Event :=
  match wasmMalloc g 8 with
  | (.error e, evs) => (.error e, evs)
  | (.ok resultPtr, evs) =>
    let body : Except Err (List Nat) × List Event :=
      match g.call fname [resultPtr, urlPtr] with
      | none => (.error (.trap fname), [.call fname [resultPtr, urlPtr]])
      | some _ =>
        let evs1 := [Event.call fname [resultPtr, urlPtr], Event.memRead resultPtr 8]
        match g.memRead resultPtr 8 with
        | none => (.error (.readFailed "result struct"), evs1)
        | some bs =>
          let bufferPtr := le32 (bs.getD 0 0) (bs.getD 1 0) (bs.getD 2 0) (bs.getD 3 0)
          let length := le32 (bs.getD 4 0) (bs.getD 5 0) (bs.getD 6 0) (bs.getD 7 0)
          if bufferPtr = 0 || length = 0 then (.ok [], evs1)
          else
            match g.memRead bufferPtr length with
            | none => (.error (.readFailed "string data"), evs1 ++ [.memRead bufferPtr length])
            | some stringBytes => (.ok stringBytes, evs1 ++ [.memRead bufferPtr length])
    (body.1, evs ++ body.2 ++ (wasmFree g resultPtr).2)

/-- Embedding of `callAdaBoolFunction` (goadawasm.go:144-156): a missing export gives
`false`; a trapped call gives `false`; otherwise the result is whether the
first result word is nonzero. -/
def callAdaBoolFunction (g : Guest) (funcName : String) (urlPtr : Nat) :
    Bool × List Event :=
  if g.hasExport funcName then
    match g.call funcName [urlPtr] with
    | none => (false, [.call funcName [urlPtr]])
    | some rs => (rs.headD 0 != 0, [.call funcName [urlPtr]])
  else (false, [])

/-- Embedding of `Url` (goadawasm.go:55-57): a host handle holding the guest pointer to
an `ada_url` object; zero is the null sentinel. -/
structure Url where
  cpointer : Nat
deriving DecidableEq, Repr

/-- Embedding of `free` (goadawasm.go:159-167): if the pointer is non-null, call the
`ada_free` export when it exists (result ignored) and clear the pointer
field to zero; if the pointer is already the null sentinel, do nothing. -/
def free (g : Guest) (u : Url) : Url × List Event :=
  if u.cpointer ≠ 0 then
    (⟨0⟩, if g.hasExport "ada_free" then [.call "ada_free" [u.cpointer]] else [])
  else (u, [])

/-- Embedding of `(*Url).Free` (goadawasm.go:272-277): unregister the finalizer (no
guest interaction) and run `free`. -/
def Url.Free (g : Guest) (u : Url) : Url × List Event :=
  free g u

/-- Embedding of `New` (goadawasm.go:170-215): reject the empty string before any guest
interaction; write the string, call `ada_parse`, truncate the result to
u32; a null result is `ErrInvalidUrl`; a non-null result is checked with
`ada_is_valid` and, failing that, freed via `ada_free` and reported as
`ErrInvalidUrl`.  The deferred `wasmFree(urlPtr)` closes every trace after
the successful string write. -/
def New (g : Guest) (urlstring : List Nat) : Except Err Url × List Event :=
  if urlstring.length = 0 then (.error .emptyString, [])
  else
    match writeStringToWasm g urlstring with
    | (.error e, evs) => (.error e, evs)
    | (.ok urlPtr, evs) =>
      let body : Except Err Url × List Event :=
        if g.hasExport "ada_parse" then
          match g.call "ada_parse" [urlPtr, urlstring.length] with
          | none => (.error (.trap "ada_parse"), [.call "ada_parse" [urlPtr, urlstring.length]])
          | some rs =>
            let pevs := [Event.call "ada_parse" [urlPtr, urlstring.length]]
            let urlObjPtr := rs.headD 0 % 2 ^ 32
            if urlObjPtr = 0 then (.error .invalidUrl, pevs)
            else
              let v := callAdaBoolFunction g "ada_is_valid" urlObjPtr
              if v.1 then (.ok ⟨urlObjPtr⟩, pevs ++ v.2)
              else
                (.error .invalidUrl,
                  pevs ++ v.2 ++
                    (if g.hasExport "ada_free" then [Event.call "ada_free" [urlObjPtr]] else []))
        else (.error (.notFound "ada_parse"), [])
      (body.1, evs ++ body.2 ++ (wasmFree g urlPtr).2)

/-- Embedding of `NewWithBase` (goadawasm.go:218-269): reject if either string is empty,
before any guest interaction; write both strings, call
`ada_parse_with_base`, then the same null / validity gate as `New`.  The
deferred frees run in LIFO order: `basePtr` first, then `urlPtr`. -/
def NewWithBase (g : Guest) (urlstring basestring : List Nat) :
    Except Err Url × List Event :=
  if urlstring.length = 0 || basestring.length = 0 then (.error .emptyString, [])
  else
    match writeStringToWasm g urlstring with
    | (.error e, evs) => (.error e, evs)
    | (.ok urlPtr, evs) =>
      let rest : Except Err Url × List Event :=
        match writeStringToWasm g basestring with
        | (.error e, bevs) => (.error e, bevs)
        | (.ok basePtr, bevs) =>
          let args := [urlPtr, urlstring.length, basePtr, basestring.length]
          let body : Except Err Url × List Event :=
            if g.hasExport "ada_parse_with_base" then
              match g.call "ada_parse_with_base" args with
              | none => (.error (.trap "ada_parse_with_base"), [.call "ada_parse_with_base" args])
              | some rs =>
                let pevs := [Event.call "ada_parse_with_base" args]
                let urlObjPtr := rs.headD 0 % 2 ^ 32
                if urlObjPtr = 0 then (.error .invalidUrl, pevs)
                else
                  let v := callAdaBoolFunction g "ada_is_valid" urlObjPtr
                  if v.1 then (.ok ⟨urlObjPtr⟩, pevs ++ v.2)
                  else
                    (.error .invalidUrl,
                      pevs ++ v.2 ++
                        (if g.hasExport "ada_free" then [Event.call "ada_free" [urlObjPtr]] else []))
            else (.error (.notFound "ada_parse_with_base"), [])
          (body.1, bevs ++ body.2 ++ (wasmFree g basePtr).2)
      (rest.1, evs ++ rest.2 ++ (wasmFree g urlPtr).2)

/-- Embedding of `(*Url).Valid` (goadawasm.go:280-284): delegate to the boolean helper
with whatever pointer the handle currently holds. -/
def Url.Valid (g : Guest) (u : Url) : Bool × List Event :=
  callAdaBoolFunction g "ada_is_valid" u.cpointer

/-- Embedding of `(*Url).HasPort` (goadawasm.go:322-326). -/
def Url.HasPort (g : Guest) (u : Url) : Bool × List Event :=
  callAdaBoolFunction g "ada_has_port" u.cpointer

/-- Embedding of `(*Url).Href` (goadawasm.go:350-359): a missing `ada_get_href` export
yields the empty string; otherwise the error of `readAdaString` is discarded and
its string (empty on error) is returned. -/
def Url.Href (g : Guest) (u : Url) : List Nat × List Event :=
  if g.hasExport "ada_get_href" then
    match readAdaString g "ada_get_href" u.cpointer with
    | (.ok s, evs) => (s, evs)
    | (.error _, evs) => ([], evs)
  else ([], [])

/-- Number of `ada_free` guest-deallocator calls in an event trace. -/
def countAdaFree (evs : List Event) : Nat :=
  (evs.filter fun e => match e with | .call "ada_free" _ => true | _ => false).length

/-!
The second architecture in the repository (the `Parser` file) resolves
exported functions through a per-instance memoizing cache guarded by a
read/write lock (`(*Parser).getFunction`).  We model the export
table as `Module`, the `funcCache` map as an association list keyed by
name, resolved function handles as `Nat` identifiers, and the observable
locking/lookup steps as `REvent`s.  The mutation another goroutine may
perform on the cache between the read-unlock and the write-lock
acquisition is modelled by the `race` parameter: in the source the only
mutator is a concurrent `getFunction`, which can only insert entries.
-/

/-- Export table of the module, as seen by `module.ExportedFunction`:
`none` models a nil (missing) export; a resolved handle is a `Nat` id. -/
structure Module where
  exportedFunction : String → Option Nat

/-- The `funcCache map[string]api.Function`, as an association list. -/
abbrev FuncCache := List (String × Nat)

/-- Observable steps of `getFunction`: acquire/release of the read lock,
acquire/release of the write lock, a cache read, the underlying
`ExportedFunction` lookup, and the memoizing store. -/
inductive REvent where
  | rlock | runlock | wlock | wunlock
  | cacheRead (name : String)
  | moduleLookup (name : String)
  | memoize (name : String)
deriving DecidableEq, Repr

/-- The write-locked slow path of `(*Parser).getFunction` (Parser file,
lines 98-110): re-check the cache under the exclusive lock; on a hit
return the cached handle without touching the module; on a true miss
perform the underlying lookup and memoize it only when non-nil. -/
def getFunctionLocked (m : Module) (c : FuncCache) (name : String) :
    Option Nat × FuncCache × List REvent :=
  match List.lookup name c with
  | some fn => (some fn, c, [.wlock, .cacheRead name, .wunlock])
  | none =>
    match m.exportedFunction name with
    | some fn =>
      (some fn, (name, fn) :: c,
       [.wlock, .cacheRead name, .moduleLookup name, .memoize name, .wunlock])
    | none =>
      (none, c, [.wlock, .cacheRead name, .moduleLookup name, .wunlock])

/-- Embedding of `(*Parser).getFunction` (Parser file, lines 90-111): optimistic lookup
under the shared read lock; on a hit return immediately; on a miss drop
the read lock, let cache insertions of any racing goroutine land (`race`),
then run the write-locked slow path. -/
def getFunction (m : Module) (c : FuncCache) (race : FuncCache → FuncCache)
    (name : String) : Option Nat × FuncCache × List REvent :=
  match List.lookup name c with
  | some fn => (some fn, c, [.rlock, .cacheRead name, .runlock])
  | none =>
    let r := getFunctionLocked m (race c) name
    (r.1, r.2.1, [.rlock, .cacheRead name, .runlock] ++ r.2.2)

/-!
Concrete guest oracles used to evaluate the theorems on closed inputs.
Each one fixes a small, fully computable behaviour for the export table,
the call results and the linear memory.
-/

/-- A guest exposing only the `free` export; every call answers with an
empty result list. -/
def gOnlyFree : Guest where
  hasExport := fun n => n == "free"
  call := fun _ _ => some []
  memWrite := fun _ _ => true
  memRead := fun _ _ => none

/-- A guest exposing every export and answering every call with the single
result word `1`. -/
def gAlwaysValid : Guest where
  hasExport := fun _ => true
  call := fun _ _ => some [1]
  memWrite := fun _ _ => true
  memRead := fun _ _ => none

/-- A guest whose parse returns the non-null object pointer `100` but whose
validity check answers `0`: `malloc` hands out pointer `16`, writes
succeed. -/
def gParseInvalid : Guest where
  hasExport := fun _ => true
  call := fun n _ =>
    match n with
    | "malloc" => some [16]
    | "ada_parse" => some [100]
    | "ada_is_valid" => some [0]
    | _ => some []
  memWrite := fun _ _ => true
  memRead := fun _ _ => none

/-- A guest whose parse returns the non-null object pointer `100` and whose
validity check answers `1`. -/
def gParseOk : Guest where
  hasExport := fun _ => true
  call := fun n _ =>
    match n with
    | "malloc" => some [16]
    | "ada_parse" => some [100]
    | "ada_is_valid" => some [1]
    | _ => some []
  memWrite := fun _ _ => true
  memRead := fun _ _ => none

/-- A guest whose linear-memory writes always fail; `malloc` hands out
pointer `16`, all exports present. -/
def gWriteFail : Guest where
  hasExport := fun _ => true
  call := fun n _ =>
    match n with
    | "malloc" => some [16]
    | _ => some []
  memWrite := fun _ _ => false
  memRead := fun _ _ => none

/-- A guest with an empty export table. -/
def gNoExports : Guest where
  hasExport := fun _ => false
  call := fun _ _ => none
  memWrite := fun _ _ => false
  memRead := fun _ _ => none

/-- A guest whose exports all exist but whose every call traps. -/
def gTrap : Guest where
  hasExport := fun _ => true
  call := fun _ _ => none
  memWrite := fun _ _ => true
  memRead := fun _ _ => none

/-- A guest for exercising `readAdaString`: `malloc` hands out scratch
pointer `16`; the 8-byte struct read there decodes to
`(bufferPtr, length) = (4, 2)`; the 2 bytes at `4` are `[104, 105]`. -/
def gReader : Guest where
  hasExport := fun _ => true
  call := fun n _ =>
    match n with
    | "malloc" => some [16]
    | _ => some [0]
  memWrite := fun _ _ => true
  memRead := fun p len =>
    if p = 16 && len = 8 then some [4, 0, 0, 0, 2, 0, 0, 0]
    else if p = 4 && len = 2 then some [104, 105]
    else none

/-- Like `gReader`, but the struct read back decodes to a null
`bufferPtr` (and length `2`). -/
def gReaderZero : Guest where
  hasExport := fun _ => true
  call := fun n _ =>
    match n with
    | "malloc" => some [16]
    | _ => some [0]
  memWrite := fun _ _ => true
  memRead := fun p len =>
    if p = 16 && len = 8 then some [0, 0, 0, 0, 2, 0, 0, 0]
    else none

/-- A module exporting exactly `ada_parse` (as handle `5`), for the
function-resolver theorems. -/
def mParse : Module where
  exportedFunction := fun n => if n = "ada_parse" then some 5 else none

/-! ## Helper lemmas -/

/-- Or-ing a value below `2 ^ n` with a left-shift by `n` is carry-free, so
it coincides with addition. -/
theorem lor_shiftLeft_eq_add {a : Nat} (b n : Nat) (h : a < 2 ^ n) :
    a ||| b <<< n = a + b * 2 ^ n := by
  rw [Nat.shiftLeft_eq, Nat.lor_comm, Nat.mul_comm, ← Nat.mul_add_lt_is_or h b]
  ring

/-- The or-of-shifted-bytes decode in the source equals the little-endian
weighted sum of the four bytes. -/
theorem le32_eq {b0 b1 b2 b3 : Nat} (h0 : b0 < 256) (h1 : b1 < 256) (h2 : b2 < 256) :
    le32 b0 b1 b2 b3 = b0 + b1 * 256 + b2 * 65536 + b3 * 16777216 := by
  unfold le32
  rw [lor_shiftLeft_eq_add b1 8 (by omega),
    lor_shiftLeft_eq_add b2 16 (by omega),
    lor_shiftLeft_eq_add b3 24 (by omega)]
  norm_num

/-- When the `free` export exists, `wasmFree` emits exactly one guest call,
to `free` with the given pointer. -/
theorem wasmFree_events (g : Guest) (ptr : Nat) (h : g.hasExport "free" = true) :
    (wasmFree g ptr).2 = [Event.call "free" [ptr]] := by
  unfold wasmFree
  rw [h]
  cases g.call "free" [ptr] <;> rfl

/-- A default-0 index into a list of bytes stays below 256. -/
theorem getD_lt_256 {bs : List Nat} (h : ∀ b ∈ bs, b < 256) {i : Nat}
    (hi : i < bs.length) : bs.getD i 0 < 256 := by
  rw [List.getD_eq_getElem bs 0 hi]
  exact h _ (List.getElem_mem hi)

/-- Memory reads of `gReader` return exactly the requested number of
bytes, each below 256. -/
theorem gReader_WF : ∀ p n xs, gReader.memRead p n = some xs →
    xs.length = n ∧ ∀ b ∈ xs, b < 256 := by
  intro p n xs h
  simp only [gReader] at h
  split at h
  · next hc =>
    simp only [Bool.and_eq_true, decide_eq_true_eq] at hc
    cases h
    exact ⟨by simp [hc.2], by decide⟩
  · split at h
    · next hc =>
      simp only [Bool.and_eq_true, decide_eq_true_eq] at hc
      cases h
      exact ⟨by simp [hc.2], by decide⟩
    · cases h

/-- Memory reads of `gReaderZero` return exactly the requested number of
bytes, each below 256. -/
theorem gReaderZero_WF : ∀ p n xs, gReaderZero.memRead p n = some xs →
    xs.length = n ∧ ∀ b ∈ xs, b < 256 := by
  intro p n xs h
  simp only [gReaderZero] at h
  split at h
  · next hc =>
    simp only [Bool.and_eq_true, decide_eq_true_eq] at hc
    cases h
    exact ⟨by simp [hc.2], by decide⟩
  · cases h

/-! ## Claim theorems -/

/-- C1: the first release of a handle (explicit `Free` or the finalizer,
both of which run `free`) clears the pointer field to the null sentinel;
a second free on the resulting handle is a complete no-op — it changes
nothing and performs no guest call at all, in particular no `ada_free`
deallocator call. -/
theorem free_first_release_clears_second_noop (g : Guest) (u : Url) :
    (free g u).1.cpointer = 0
    ∧ free g (free g u).1 = ((free g u).1, [])
    ∧ countAdaFree (free g (free g u).1).2 = 0 := by
  by_cases h : u.cpointer = 0 <;>
    simp [free, h, countAdaFree]

/-- C5: `New` applied to the empty string fails with `ErrEmptyString` for
every guest oracle — whatever exports exist and however calls would answer
— and performs no guest interaction at all. -/
theorem New_empty_always_input_error (g : Guest) :
    New g [] = (.error .emptyString, []) := rfl

/-- C10: `NewWithBase` rejects with `ErrEmptyString` whenever either the
URL string or the base string is empty, for every guest oracle, with no
guest interaction. -/
theorem NewWithBase_empty_either_input_error (g : Guest) (s b : List Nat)
    (h : s = [] ∨ b = []) :
    NewWithBase g s b = (.error .emptyString, []) := by
  rcases h with h | h <;> subst h <;> simp [NewWithBase]

/-- C10 witness: both empty-argument shapes on a concrete guest. -/
theorem NewWithBase_empty_either_input_error_w :
    NewWithBase gAlwaysValid [104] [] = (.error .emptyString, [])
    ∧ NewWithBase gAlwaysValid [] [104] = (.error .emptyString, []) :=
  ⟨NewWithBase_empty_either_input_error gAlwaysValid [104] [] (Or.inr rfl),
   NewWithBase_empty_either_input_error gAlwaysValid [] [104] (Or.inl rfl)⟩

/-- C7 counterexample: `wasmFree` is not a no-op on the null sentinel — on
a guest exposing the `free` export it invokes the guest deallocator with
pointer value zero. -/
theorem wasmFree_null_calls_deallocator_cx :
    (wasmFree gOnlyFree 0).2 = [Event.call "free" [0]] := by decide

/-- C7 amended: `wasmFree` forwards every pointer, the null sentinel
included, to the guest `free` export whenever that export exists; the
no-op-on-null behaviour lives one level up, in the handle-level `free`,
which skips the guest call when the pointer field is zero. -/
theorem wasmFree_forwards_null_free_skips (g : Guest) (ptr : Nat)
    (h : g.hasExport "free" = true) :
    (wasmFree g ptr).2 = [Event.call "free" [ptr]]
    ∧ free g ⟨0⟩ = (⟨0⟩, []) :=
  ⟨wasmFree_events g ptr h, rfl⟩

/-- C7 amended witness: the concrete guest `gOnlyFree` at pointer zero. -/
theorem wasmFree_forwards_null_free_skips_w :
    (wasmFree gOnlyFree 0).2 = [Event.call "free" [0]]
    ∧ free gOnlyFree ⟨0⟩ = (⟨0⟩, []) :=
  wasmFree_forwards_null_free_skips gOnlyFree 0 (by decide)

/-- C8 counterexample: operations on a freed handle are not disallowed and
do not fail fast — after `free`, `Valid` still performs a guest call
(`ada_is_valid` with the cleared pointer `0`) and returns the guest
answer, here `true`. -/
theorem freed_handle_op_not_disallowed_cx :
    Url.Valid gAlwaysValid (free gAlwaysValid ⟨100⟩).1
      = (true, [Event.call "ada_is_valid" [0]]) := by decide

/-- C8 amended: after `Free` the pointer field is the null sentinel, and a
subsequent operation is not rejected: it proceeds against the guest with
pointer `0` — the null sentinel rather than the stale pointer — returning
whatever the guest answers for the null object. -/
theorem freed_handle_ops_use_null_sentinel (g : Guest) (u : Url) :
    (free g u).1.cpointer = 0
    ∧ Url.Valid g (free g u).1 = callAdaBoolFunction g "ada_is_valid" 0 := by
  by_cases h : u.cpointer = 0 <;>
    simp [free, h, Url.Valid]

/-- C3: `writeStringToWasm` on the empty string returns the null sentinel
with no guest interaction (in particular no allocator call); on a
non-empty string `s` it calls the allocator with exactly `s.length` and
writes exactly the raw bytes of `s` (length-carried, no terminator) at the
returned pointer; and when the memory write fails, the just-allocated
block is freed (a guest `free` call on that pointer) before the error is
returned. -/
theorem writeString_marshal_spec (g : Guest) (s : List Nat) :
    writeStringToWasm g [] = (.ok 0, [])
    ∧ (∀ rs, s ≠ [] → g.hasExport "malloc" = true →
        g.call "malloc" [s.length] = some rs →
        ((g.memWrite (rs.headD 0 % 2 ^ 32) s = true →
            writeStringToWasm g s =
              (.ok (rs.headD 0 % 2 ^ 32),
               [.call "malloc" [s.length], .memWrite (rs.headD 0 % 2 ^ 32) s]))
         ∧ (g.memWrite (rs.headD 0 % 2 ^ 32) s = false →
            writeStringToWasm g s =
              (.error .writeFailed,
               [.call "malloc" [s.length], .memWrite (rs.headD 0 % 2 ^ 32) s]
                 ++ (wasmFree g (rs.headD 0 % 2 ^ 32)).2)
            ∧ (g.hasExport "free" = true →
                Event.call "free" [rs.headD 0 % 2 ^ 32]
                  ∈ (writeStringToWasm g s).2)))) := by
  refine ⟨rfl, fun rs hs hm hc => ⟨fun hw => ?_, fun hw => ⟨?_, fun hf => ?_⟩⟩⟩
  · have hw' : g.memWrite (rs.head?.getD 0 % 4294967296) s = true := by simpa using hw
    simp [writeStringToWasm, wasmMalloc, hs, hm, hc, hw']
  · have hw' : g.memWrite (rs.head?.getD 0 % 4294967296) s = false := by simpa using hw
    simp [writeStringToWasm, wasmMalloc, hs, hm, hc, hw']
  · have hw' : g.memWrite (rs.head?.getD 0 % 4294967296) s = false := by simpa using hw
    simp [writeStringToWasm, wasmMalloc, hs, hm, hc, hw', wasmFree_events g _ hf]

/-- C3 witness: a guest where the write succeeds (`gParseOk`) and one
where it fails (`gWriteFail`), each on the one-byte string `[104]`. -/
theorem writeString_marshal_spec_w :
    writeStringToWasm gParseOk [104] = (.ok 16, [.call "malloc" [1], .memWrite 16 [104]])
    ∧ writeStringToWasm gWriteFail [104] =
        (.error .writeFailed,
         [.call "malloc" [1], .memWrite 16 [104]] ++ (wasmFree gWriteFail 16).2)
    ∧ Event.call "free" [16] ∈ (writeStringToWasm gWriteFail [104]).2 := by
  refine ⟨((writeString_marshal_spec gParseOk [104]).2 [16] (by decide) (by decide)
      (by decide)).1 (by decide), ?_, ?_⟩
  · exact (((writeString_marshal_spec gWriteFail [104]).2 [16] (by decide) (by decide)
      (by decide)).2 (by decide)).1
  · exact (((writeString_marshal_spec gWriteFail [104]).2 [16] (by decide) (by decide)
      (by decide)).2 (by decide)).2 (by decide)

/-- C6: the shared boolean helper degrades a missing export and a trapped
call to `false`, and on a successful call answers `true` exactly when the
first result word is nonzero; the `Href` accessor degrades a missing
`ada_get_href` export to the empty string, and discards a bridge error
from `readAdaString`, returning the empty string instead. -/
theorem bool_predicate_accessor_degrade (g : Guest) (fname : String) (p : Nat) (u : Url) :
    (g.hasExport fname = false → callAdaBoolFunction g fname p = (false, []))
    ∧ (g.call fname [p] = none → (callAdaBoolFunction g fname p).1 = false)
    ∧ (∀ rs, g.hasExport fname = true → g.call fname [p] = some rs →
        ((callAdaBoolFunction g fname p).1 = true ↔ rs.headD 0 ≠ 0))
    ∧ (g.hasExport "ada_get_href" = false → Url.Href g u = ([], []))
    ∧ (∀ e evs, g.hasExport "ada_get_href" = true →
        readAdaString g "ada_get_href" u.cpointer = (.error e, evs) →
        Url.Href g u = ([], evs)) := by
  refine ⟨fun h => ?_, fun h => ?_, fun rs h hc => ?_, fun h => ?_, fun e evs hh h => ?_⟩
  · simp [callAdaBoolFunction, h]
  · unfold callAdaBoolFunction
    rcases hh : g.hasExport fname <;> simp [h, hh]
  · simp [callAdaBoolFunction, h, hc, bne_iff_ne]
  · simp [Url.Href, h]
  · simp [Url.Href, hh, h]

/-- C6 witness: missing export, trapped call, successful call, missing
accessor export, and accessor over a failing bridge, on concrete guests. -/
theorem bool_predicate_accessor_degrade_w :
    callAdaBoolFunction gNoExports "ada_has_port" 5 = (false, [])
    ∧ (callAdaBoolFunction gTrap "ada_has_port" 5).1 = false
    ∧ ((callAdaBoolFunction gAlwaysValid "ada_has_port" 5).1 = true
        ↔ ([1] : List Nat).headD 0 ≠ 0)
    ∧ Url.Href gNoExports ⟨7⟩ = ([], [])
    ∧ Url.Href gTrap ⟨7⟩ = ([], [Event.call "malloc" [8]]) :=
  ⟨(bool_predicate_accessor_degrade gNoExports "ada_has_port" 5 ⟨7⟩).1 (by decide),
   (bool_predicate_accessor_degrade gTrap "ada_has_port" 5 ⟨7⟩).2.1 (by decide),
   (bool_predicate_accessor_degrade gAlwaysValid "ada_has_port" 5 ⟨7⟩).2.2.1 [1]
     (by decide) (by decide),
   (bool_predicate_accessor_degrade gNoExports "ada_has_port" 5 ⟨7⟩).2.2.2.1 (by decide),
   (bool_predicate_accessor_degrade gTrap "ada_has_port" 5 ⟨7⟩).2.2.2.2
     (.trap "malloc") [Event.call "malloc" [8]] (by decide) (by decide)⟩

/-- C2: `New` hands back a handle only when `ada_parse` returned a
non-null (u32-truncated) pointer AND the `ada_is_valid` check confirmed
the object; and on the non-null-but-invalid path the guest object is freed
immediately on the guest side (an `ada_free` call on the parse result
precedes even the deferred input-buffer free) and the caller receives
`ErrInvalidUrl` instead of a handle. -/
theorem New_validity_gate (g : Guest) (s : List Nat) :
    (∀ u evs, New g s = (.ok u, evs) →
      ∃ urlPtr wevs rs, writeStringToWasm g s = (.ok urlPtr, wevs)
        ∧ g.call "ada_parse" [urlPtr, s.length] = some rs
        ∧ u.cpointer = rs.headD 0 % 2 ^ 32
        ∧ u.cpointer ≠ 0
        ∧ (callAdaBoolFunction g "ada_is_valid" u.cpointer).1 = true)
    ∧ (∀ urlPtr wevs rs, s ≠ [] →
        writeStringToWasm g s = (.ok urlPtr, wevs) →
        g.hasExport "ada_parse" = true →
        g.call "ada_parse" [urlPtr, s.length] = some rs →
        rs.headD 0 % 2 ^ 32 ≠ 0 →
        (callAdaBoolFunction g "ada_is_valid" (rs.headD 0 % 2 ^ 32)).1 = false →
        g.hasExport "ada_free" = true →
        New g s =
          (.error .invalidUrl,
           wevs ++ ([Event.call "ada_parse" [urlPtr, s.length]]
               ++ (callAdaBoolFunction g "ada_is_valid" (rs.headD 0 % 2 ^ 32)).2
               ++ [Event.call "ada_free" [rs.headD 0 % 2 ^ 32]])
             ++ (wasmFree g urlPtr).2)) := by
  constructor
  · intro u evs h
    simp only [New] at h
    split at h
    · simp at h
    · split at h
      next hw => simp at h
      next urlPtr wevs hw =>
        split at h
        · split at h
          next hc => simp at h
          next rs hc =>
            split at h
            · simp at h
            · next hnz =>
              split at h
              · next hv =>
                simp only [Prod.mk.injEq, Except.ok.injEq] at h
                obtain ⟨hu, -⟩ := h
                subst hu
                exact ⟨urlPtr, wevs, rs, hw, hc, by simp, by simpa using hnz,
                  by simpa using hv⟩
              · simp at h
        · simp at h
  · intro urlPtr wevs rs hs hw hp hc hnz hv hf
    have hs' : ¬ s.length = 0 := by simpa using hs
    simp only [New, hs', if_false, hw, hp, if_true, hc, hnz, hv, hf]
    simp [hnz, hv]

/-- C2 witness: on `gParseOk` the successful construction exhibits the
non-null parse result and confirmed validity check; on `gParseInvalid`
(parse answers pointer `100`, validity check answers `0`) construction
fails with `ErrInvalidUrl` after an immediate `ada_free` of the guest
object. -/
theorem New_validity_gate_w :
    (∃ urlPtr wevs rs, writeStringToWasm gParseOk [104] = (.ok urlPtr, wevs)
      ∧ gParseOk.call "ada_parse" [urlPtr, 1] = some rs
      ∧ (Url.mk 100).cpointer = rs.headD 0 % 2 ^ 32
      ∧ (Url.mk 100).cpointer ≠ 0
      ∧ (callAdaBoolFunction gParseOk "ada_is_valid" (Url.mk 100).cpointer).1 = true)
    ∧ New gParseInvalid [104] =
        (.error .invalidUrl,
         [Event.call "malloc" [1], .memWrite 16 [104], .call "ada_parse" [16, 1],
          .call "ada_is_valid" [100], .call "ada_free" [100], .call "free" [16]]) :=
  ⟨(New_validity_gate gParseOk [104]).1 ⟨100⟩
      [Event.call "malloc" [1], .memWrite 16 [104], .call "ada_parse" [16, 1],
       .call "ada_is_valid" [100], .call "free" [16]] (by decide),
   (New_validity_gate gParseInvalid [104]).2 16
      [Event.call "malloc" [1], .memWrite 16 [104]] [100]
      (by decide) (by decide) (by decide) (by decide) (by decide) (by decide) (by decide)⟩

/-- C4: `readAdaString` decodes the 8 scratch bytes as two little-endian
unsigned 32-bit fields — `bufferPtr` from bytes 0-3, `length` from bytes
4-7, each the weighted sum of its bytes — and: a zero in either field
yields the empty string with no error; otherwise the result is exactly the
`length` bytes read starting at `bufferPtr`; and on every exit path after
the successful 8-byte scratch allocation, the trace ends with the guest
`free` call releasing the scratch buffer (error paths included, by the
deferred free).  `hWF`/`hbyte` state that a successful guest memory read
returns exactly the requested number of bytes, each below 256. -/
theorem readAdaString_decode_release (g : Guest) (fname : String) (urlPtr : Nat)
    (hfree : g.hasExport "free" = true)
    (hWF : ∀ p n xs, g.memRead p n = some xs → xs.length = n)
    (hbyte : ∀ p n xs, g.memRead p n = some xs → ∀ b ∈ xs, b < 256) :
    (∀ resultPtr evs0, wasmMalloc g 8 = (.ok resultPtr, evs0) →
      ∃ mid, (readAdaString g fname urlPtr).2
          = evs0 ++ mid ++ [Event.call "free" [resultPtr]])
    ∧ (∀ resultPtr evs0 rs bs, wasmMalloc g 8 = (.ok resultPtr, evs0) →
        g.call fname [resultPtr, urlPtr] = some rs →
        g.memRead resultPtr 8 = some bs →
        ((bs.getD 0 0 + bs.getD 1 0 * 256 + bs.getD 2 0 * 65536 + bs.getD 3 0 * 16777216 = 0
            ∨ bs.getD 4 0 + bs.getD 5 0 * 256 + bs.getD 6 0 * 65536 + bs.getD 7 0 * 16777216 = 0) →
          (readAdaString g fname urlPtr).1 = .ok [])
        ∧ (∀ sb,
            bs.getD 0 0 + bs.getD 1 0 * 256 + bs.getD 2 0 * 65536
              + bs.getD 3 0 * 16777216 ≠ 0 →
            bs.getD 4 0 + bs.getD 5 0 * 256 + bs.getD 6 0 * 65536
              + bs.getD 7 0 * 16777216 ≠ 0 →
            g.memRead
              (bs.getD 0 0 + bs.getD 1 0 * 256 + bs.getD 2 0 * 65536 + bs.getD 3 0 * 16777216)
              (bs.getD 4 0 + bs.getD 5 0 * 256 + bs.getD 6 0 * 65536 + bs.getD 7 0 * 16777216)
              = some sb →
            (readAdaString g fname urlPtr).1 = .ok sb
            ∧ sb.length =
                bs.getD 4 0 + bs.getD 5 0 * 256 + bs.getD 6 0 * 65536
                  + bs.getD 7 0 * 16777216)) := by
  constructor
  · intro resultPtr evs0 hm
    refine ⟨(readAdaString g fname urlPtr).2.drop evs0.length |>.dropLast, ?_⟩
    simp only [readAdaString, hm, wasmFree_events g resultPtr hfree]
    simp
  · intro resultPtr evs0 rs bs hm hcall hbs
    have hlen : bs.length = 8 := hWF _ _ _ hbs
    have hb : ∀ i, i < 8 → bs.getD i 0 < 256 := fun i hi =>
      getD_lt_256 (hbyte _ _ _ hbs) (by omega)
    have e1 : le32 (bs.getD 0 0) (bs.getD 1 0) (bs.getD 2 0) (bs.getD 3 0)
        = bs.getD 0 0 + bs.getD 1 0 * 256 + bs.getD 2 0 * 65536 + bs.getD 3 0 * 16777216 :=
      le32_eq (hb 0 (by omega)) (hb 1 (by omega)) (hb 2 (by omega))
    have e2 : le32 (bs.getD 4 0) (bs.getD 5 0) (bs.getD 6 0) (bs.getD 7 0)
        = bs.getD 4 0 + bs.getD 5 0 * 256 + bs.getD 6 0 * 65536 + bs.getD 7 0 * 16777216 :=
      le32_eq (hb 4 (by omega)) (hb 5 (by omega)) (hb 6 (by omega))
    constructor
    · intro h0
      simp only [readAdaString, hm, hcall, hbs]
      split
      · rfl
      · next hcond =>
        rw [e1, e2] at hcond
        simp only [Bool.or_eq_true, decide_eq_true_eq] at hcond
        exact absurd h0 (by tauto)
    · intro sb hB hL hsb
      refine ⟨?_, hWF _ _ _ hsb⟩
      simp only [readAdaString, hm, hcall, hbs]
      split
      · next hcond =>
        rw [e1, e2] at hcond
        simp only [Bool.or_eq_true, decide_eq_true_eq] at hcond
        exact absurd hcond (by tauto)
      · rw [e1, e2, hsb]

/-- C4 witness: on `gReader` (struct decodes to `(4, 2)`, bytes `[104,
105]` at `4`) the release of the scratch buffer closes the trace and the result
is exactly those bytes; on `gReaderZero` (null `bufferPtr`) the result is
the empty string without error. -/
theorem readAdaString_decode_release_w :
    (∃ mid, (readAdaString gReader "ada_get_href" 7).2
        = [Event.call "malloc" [8]] ++ mid ++ [Event.call "free" [16]])
    ∧ (readAdaString gReader "ada_get_href" 7).1 = .ok [104, 105]
    ∧ (readAdaString gReaderZero "ada_get_href" 7).1 = .ok [] :=
  ⟨(readAdaString_decode_release gReader "ada_get_href" 7 (by decide)
      (fun p n xs h => (gReader_WF p n xs h).1)
      (fun p n xs h => (gReader_WF p n xs h).2)).1 16 [Event.call "malloc" [8]] (by decide),
   (((readAdaString_decode_release gReader "ada_get_href" 7 (by decide)
      (fun p n xs h => (gReader_WF p n xs h).1)
      (fun p n xs h => (gReader_WF p n xs h).2)).2 16 [Event.call "malloc" [8]] [0]
      [4, 0, 0, 0, 2, 0, 0, 0] (by decide) (by decide) (by decide)).2 [104, 105]
      (by decide) (by decide) (by decide)).1,
   ((readAdaString_decode_release gReaderZero "ada_get_href" 7 (by decide)
      (fun p n xs h => (gReaderZero_WF p n xs h).1)
      (fun p n xs h => (gReaderZero_WF p n xs h).2)).2 16 [Event.call "malloc" [8]] [0]
      [0, 0, 0, 0, 2, 0, 0, 0] (by decide) (by decide) (by decide)).1 (by decide)⟩

/-- C9: the resolver does an optimistic probe under the read lock (a hit
returns the cached handle with no write lock, no module lookup, and an
unchanged cache); on a miss it re-checks under the exclusive lock before
the underlying lookup — if a racing insertion landed in the window, the
cached handle is returned and no duplicate module lookup occurs; on a true
miss the underlying lookup runs and a non-nil result is memoized; and the
cache only grows — an entry present before the call (and surviving the
race window, `hrace`) is still present, unreplaced, afterwards. -/
theorem getFunction_cache_spec (m : Module) (c : FuncCache)
    (race : FuncCache → FuncCache) (name : String)
    (hrace : ∀ k v, List.lookup k c = some v → List.lookup k (race c) = some v) :
    (∀ fn, List.lookup name c = some fn →
      getFunction m c race name = (some fn, c, [.rlock, .cacheRead name, .runlock]))
    ∧ (∀ fn, List.lookup name c = none → List.lookup name (race c) = some fn →
      getFunction m c race name =
        (some fn, race c,
         [.rlock, .cacheRead name, .runlock, .wlock, .cacheRead name, .wunlock]))
    ∧ (∀ fn, List.lookup name c = none → List.lookup name (race c) = none →
        m.exportedFunction name = some fn →
      getFunction m c race name =
        (some fn, (name, fn) :: race c,
         [.rlock, .cacheRead name, .runlock, .wlock, .cacheRead name,
          .moduleLookup name, .memoize name, .wunlock]))
    ∧ (List.lookup name c = none → List.lookup name (race c) = none →
        m.exportedFunction name = none →
      getFunction m c race name =
        (none, race c,
         [.rlock, .cacheRead name, .runlock, .wlock, .cacheRead name,
          .moduleLookup name, .wunlock]))
    ∧ (∀ k v, List.lookup k c = some v →
        List.lookup k (getFunction m c race name).2.1 = some v) := by
  refine ⟨fun fn h => ?_, fun fn h h2 => ?_, fun fn h h2 h3 => ?_, fun h h2 h3 => ?_,
    fun k v hk => ?_⟩
  · simp [getFunction, h]
  · simp [getFunction, getFunctionLocked, h, h2]
  · simp [getFunction, getFunctionLocked, h, h2, h3]
  · simp [getFunction, getFunctionLocked, h, h2, h3]
  · have hk' := hrace k v hk
    unfold getFunction
    cases hn : List.lookup name c with
    | some fn => simpa using hk
    | none =>
      unfold getFunctionLocked
      cases hrn : List.lookup name (race c) with
      | some fn => simpa using hk'
      | none =>
        cases hme : m.exportedFunction name with
        | none => simpa using hk'
        | some fn =>
          have hne : k ≠ name := fun he => by
            rw [he, hrn] at hk'
            exact Option.noConfusion hk'
          have hbe : (k == name) = false := beq_eq_false_iff_ne.mpr hne
          simp [List.lookup, hbe, hk']

/-- C9 witness: a read-lock hit, a race-window hit (no duplicate module
lookup), a true miss with memoization, and cache monotonicity, on the
concrete module `mParse`. -/
theorem getFunction_cache_spec_w :
    getFunction mParse [("malloc", 7)] id "malloc"
      = (some 7, [("malloc", 7)], [.rlock, .cacheRead "malloc", .runlock])
    ∧ getFunction mParse [] (fun c => ("free", 3) :: c) "free"
      = (some 3, [("free", 3)],
         [.rlock, .cacheRead "free", .runlock, .wlock, .cacheRead "free", .wunlock])
    ∧ getFunction mParse [] id "ada_parse"
      = (some 5, [("ada_parse", 5)],
         [.rlock, .cacheRead "ada_parse", .runlock, .wlock, .cacheRead "ada_parse",
          .moduleLookup "ada_parse", .memoize "ada_parse", .wunlock])
    ∧ List.lookup "malloc" (getFunction mParse [("malloc", 7)] id "ada_parse").2.1
        = some 7 :=
  ⟨(getFunction_cache_spec mParse [("malloc", 7)] id "malloc" (fun _ _ h => h)).1 7
      (by decide),
   (getFunction_cache_spec mParse [] (fun c => ("free", 3) :: c) "free"
      (fun k v h => by simp [List.lookup] at h)).2.1 3 (by decide) (by decide),
   (getFunction_cache_spec mParse [] id "ada_parse" (fun _ _ h => h)).2.2.1 5
      (by decide) (by decide) (by decide),
   (getFunction_cache_spec mParse [("malloc", 7)] id "ada_parse"
      (fun _ _ h => h)).2.2.2.2 "malloc" 7 (by decide)⟩

end GoadaWasm
